import Mathlib

/-!
# Loading built images into the nodes of a kind cluster

A shallow embedding of `pkg/skaffold/runner/kind.go`:
`SkaffoldRunner.loadImagesInKindNodes`, `findKnownImages` and
`SkaffoldRunner.wasBuilt`.

The function talks to the outside three ways: it writes to `out`, it runs
`kubectl get nodes ...` through `kubectl.CLI.RunOut`, and it runs
`kind load docker-image ...` through `util.RunCmdOut`.  Each of these is
recorded as an `Event` in a trace, in program order.  What the two external
commands answer is given by an `Env`; an answer may depend on everything the
call has done so far (the trace up to the command).
-/

namespace Kind

/-! ## Data model -/

/-- Go `error` values as far as this file uses them: an error has a message
(`Error()`) and, when it was built by `fmt.Errorf` with `%w`, the error it
wraps (`Unwrap()`). -/
inductive GoError where
  | leaf (msg : String)
  | wrapped (msg : String) (cause : GoError)
  deriving DecidableEq, Repr

/-- The text of `err.Error()`. -/
def GoError.Error : GoError → String
  | .leaf m => m
  | .wrapped m _ => m

/-- The result of `errors.Unwrap(err)`. -/
def GoError.Unwrap : GoError → Option GoError
  | .leaf _ => none
  | .wrapped _ c => some c

/-- The chain walk of `errors.Is(err, target)`: `target` is `err` itself or
is reached from it by repeated `Unwrap`. -/
def GoError.Is : GoError → GoError → Bool
  | .leaf m, target => decide (GoError.leaf m = target)
  | .wrapped m c, target => decide (GoError.wrapped m c = target) || GoError.Is c target

/-- The fields of `build.Artifact`. -/
structure Artifact where
  ImageName : String
  Tag : String
  deriving DecidableEq, Repr

/-- The part of `SkaffoldRunner` that `kind.go` reads: the artifacts this
run built. -/
structure SkaffoldRunner where
  builds : List Artifact
  deriving Repr

/-- The three printers of package `color` that `kind.go` writes with. -/
inductive Color where
  | Default
  | Green
  | Red
  deriving DecidableEq, Repr

/-- What a call does to the outside, in program order. -/
inductive Event where
  | Fprint (c : Color) (text : String)
  | RunOut (args : List String)
  | RunCmdOut (argv : List String)
  deriving DecidableEq, Repr

/-- The collaborators of `loadImagesInKindNodes` that live outside the file.
`RunOut` and `RunCmdOut` receive the trace so far and the command line and
answer as the Go functions do, with the captured output and an error that is
`none` for `nil`.  `Quote` is the `%q` verb of `fmt` on a string
(`strconv.Quote`), and `Since` is `time.Since(start)` as `Fprintln` prints
it at the moment given by the trace. -/
structure Env where
  RunOut : List Event → List String → String × Option GoError
  RunCmdOut : List Event → List String → String × Option GoError
  Quote : String → String
  Since : List Event → String

/-! ## Library functions -/

/-- Go `strings.Split(s, sep)` for a separator of one byte, on the characters
of `s`: the text is cut at every occurrence of the separator, so the result
has one more field than there are separators, fields may be empty, and the
empty text gives the one field `""`. -/
def splitChars (sep : Char) : List Char → List (List Char)
  | [] => [[]]
  | c :: cs =>
    if c = sep then [] :: splitChars sep cs
    else match splitChars sep cs with
      | [] => [[c]]
      | f :: fs => (c :: f) :: fs

/-- Go `strings.Split(s, " ")`. -/
def Split (s : String) : List String :=
  (splitChars (Char.ofNat 32) s.data).map String.mk

/-- Go `strings.Join(elems, sep)`. -/
def Join : List String → String → String
  | [], _ => ""
  | [a], _ => a
  | a :: b :: rest, sep => a ++ sep ++ Join (b :: rest) sep

/-- Modelled from the spec: `util.StrSliceContains` is not among the source
files; the spec describes the presence check as "the artifact's tag is
already a member of the inventory set". -/
def StrSliceContains : List String → String → Bool
  | [], _ => false
  | x :: rest, s => if x = s then true else StrSliceContains rest s

/-- The text `color.X.Fprintln(out, a)` writes: the argument and a newline. -/
def Fprintln (c : Color) (a : String) : Event :=
  .Fprint c (a ++ "\n")

/-- The text `color.X.Fprintln(out, a, b)` writes: the operands separated by
a space, and a newline. -/
def Fprintln2 (c : Color) (a b : String) : Event :=
  .Fprint c (a ++ " " ++ b ++ "\n")

/-! ## The source file -/

/-- The arguments of the node query of `findKnownImages`. -/
def nodeQueryArgs : List String :=
  ["get", "nodes", "-ojsonpath=\x27\x7b@.items[*].status.images[*].names[*]\x7d\x27"]

/-- The command line of `exec.CommandContext(ctx, "kind", "load",
"docker-image", "--name", kindCluster, artifact.Tag)`. -/
def kindLoadCmd (kindCluster tag : String) : List String :=
  ["kind", "load", "docker-image", "--name", kindCluster, tag]

/-- The first line `loadImagesInKindNodes` writes:
`color.Default.Fprintln(out, "Loading images into kind cluster nodes...")`. -/
def header : Event :=
  Fprintln .Default "Loading images into kind cluster nodes..."

/-- The progress prefix `color.Default.Fprintf(out, " - %s -> ", tag)`. -/
def progress (tag : String) : Event :=
  .Fprint .Default (" - " ++ tag ++ " -> ")

/-- The function `findKnownImages`: the trace after the query, the returned
slice (`none` for `nil`) and the returned error (`none` for `nil`). -/
def findKnownImages (env : Env) (tr : List Event) :
    List Event × Option (List String) × Option GoError :=
  let tr1 := tr ++ [Event.RunOut nodeQueryArgs]
  match env.RunOut tr nodeQueryArgs with
  | (_, some err) =>
    (tr1, none, some (.wrapped ("unable to inspect the nodes: " ++ err.Error) err))
  | (nodeGetOut, none) => (tr1, some (Split nodeGetOut), none)

/-- The loop of `SkaffoldRunner.wasBuilt`. -/
def wasBuiltLoop : List Artifact → String → Bool
  | [], _ => false
  | built :: rest, tag => if built.Tag = tag then true else wasBuiltLoop rest tag

/-- The method `SkaffoldRunner.wasBuilt`. -/
def SkaffoldRunner.wasBuilt (r : SkaffoldRunner) (tag : String) : Bool :=
  wasBuiltLoop r.builds tag

/-- The statement `if knownImages == nil { knownImages, err = findKnownImages(...) }`
of the loop body: the trace, the inventory and the error after it. -/
def resolveKnownImages (env : Env) (knownImages : Option (List String)) (tr : List Event) :
    List Event × Option (List String) × Option GoError :=
  match knownImages with
  | none => findKnownImages env tr
  | some k => (tr, some k, none)

/-- How one iteration of the loop of `loadImagesInKindNodes` ends: with
`continue` or by falling off the body (`next`, with the memoized inventory
and the trace), or with `return err` (`ret`). -/
inductive Step where
  | next (knownImages : Option (List String)) (tr : List Event)
  | ret (tr : List Event) (err : GoError)
  deriving DecidableEq, Repr

/-- The body of the loop of `loadImagesInKindNodes` for one artifact, from
the memoized inventory `knownImages` (`none` is `nil`) and the trace `tr`. -/
def loopBody (env : Env) (r : SkaffoldRunner) (kindCluster : String)
    (artifact : Artifact) (knownImages : Option (List String)) (tr : List Event) : Step :=
  if !r.wasBuilt artifact.Tag then .next knownImages tr
  else
    let tr1 := tr ++ [progress artifact.Tag]
    match resolveKnownImages env knownImages tr1 with
    | (tr2, _, some err) =>
      .ret tr2 (.wrapped ("unable to retrieve node\x27s images: " ++ err.Error) err)
    | (tr2, known, none) =>
      if StrSliceContains (known.getD []) artifact.Tag then
        .next known (tr2 ++ [Fprintln .Green "Found"])
      else
        let cmd := kindLoadCmd kindCluster artifact.Tag
        let tr3 := tr2 ++ [Event.RunCmdOut cmd]
        match env.RunCmdOut tr2 cmd with
        | (output, some err) =>
          .ret (tr3 ++ [Fprintln .Red "Failed"])
            (.wrapped ("unable to load image with kind " ++ env.Quote artifact.Tag ++ ": "
              ++ err.Error ++ ", " ++ output) err)
        | (_, none) => .next known (tr3 ++ [Fprintln .Green "Loaded"])

/-- The loop of `loadImagesInKindNodes` over the remaining artifacts and what
follows it: the final trace and the returned error (`none` for `nil`). -/
def loadLoop (env : Env) (r : SkaffoldRunner) (kindCluster : String) :
    List Artifact → Option (List String) → List Event → List Event × Option GoError
  | [], _, tr => (tr ++ [Fprintln2 .Default "Images loaded in" (env.Since tr)], none)
  | artifact :: rest, knownImages, tr =>
    match loopBody env r kindCluster artifact knownImages tr with
    | .next known tr1 => loadLoop env r kindCluster rest known tr1
    | .ret tr1 err => (tr1, some err)

/-- The method `SkaffoldRunner.loadImagesInKindNodes`: everything the call
does, in order, and the error it returns (`none` for `nil`). -/
def loadImagesInKindNodes (env : Env) (r : SkaffoldRunner) (kindCluster : String)
    (artifacts : List Artifact) : List Event × Option GoError :=
  loadLoop env r kindCluster artifacts none [header]

/-! ## Observations on a trace -/

/-- The transfer commands of a trace, in order. -/
def transfers : List Event → List (List String)
  | [] => []
  | .RunCmdOut argv :: rest => argv :: transfers rest
  | _ :: rest => transfers rest

/-- The number of node queries in a trace. -/
def queryCount : List Event → Nat
  | [] => 0
  | .RunOut _ :: rest => queryCount rest + 1
  | _ :: rest => queryCount rest

/-- The events the resolution of the inventory adds: the node query when the
inventory was still `nil`, nothing otherwise. -/
def queryEvents (known : Option (List String)) : List Event :=
  if known.isSome then [] else [Event.RunOut nodeQueryArgs]

/-- Whether an event is the summary line of `loadImagesInKindNodes`: a write
whose text starts with `Images loaded in`. -/
def isSummary : Event → Bool
  | .Fprint _ text => "Images loaded in".data.isPrefixOf text.data
  | _ => false

/-- Whether an event is one of the three status lines. -/
def isStatus (e : Event) : Bool :=
  decide (e = Fprintln .Green "Found") || decide (e = Fprintln .Green "Loaded")
    || decide (e = Fprintln .Red "Failed")

/-- The whitespace of the specification: spaces, tabs and newlines. -/
def isWhitespace (c : Char) : Bool :=
  decide (c = Char.ofNat 32) || decide (c = Char.ofNat 9) || decide (c = Char.ofNat 10)

/-- The scan behind `whitespaceTokens`; `cur` is the token being read, last
character first. -/
def whitespaceTokensAux : List Char → List Char → List (List Char)
  | [], cur => if cur.isEmpty then [] else [cur.reverse]
  | c :: cs, cur =>
    if isWhitespace c then
      if cur.isEmpty then whitespaceTokensAux cs []
      else cur.reverse :: whitespaceTokensAux cs []
    else whitespaceTokensAux cs (c :: cur)

/-- The inventory as the specification words it, for comparison with
`findKnownImages`: the text split on whitespace (spaces, tabs, newlines, and
runs of them), that is, its maximal runs of non-whitespace characters. -/
def whitespaceTokens (s : String) : List String :=
  (whitespaceTokensAux s.data []).map String.mk

/-- A collaborator for worked examples: the node query always answers
`nodes`, a transfer answers by its command line, `%q` puts a plain tag between
double quotes, and the elapsed time prints as `1s`. -/
def exampleEnv (nodes : String × Option GoError)
    (kind : List String → String × Option GoError) : Env where
  RunOut := fun _ _ => nodes
  RunCmdOut := fun _ argv => kind argv
  Quote := fun s => "\x22" ++ s ++ "\x22"
  Since := fun _ => "1s"

/-- A transfer mechanism for worked examples: the transfer of `app:v2` fails
with `exit status 1` and the output `no such image`, every other one works. -/
def exampleKind (argv : List String) : String × Option GoError :=
  if argv = ["kind", "load", "docker-image", "--name", "kind", "app:v2"] then
    ("no such image", some (.leaf "exit status 1"))
  else ("", none)

/-- Three artifacts for worked examples. -/
def exampleArtifacts : List Artifact :=
  [⟨"app", "app:v1"⟩, ⟨"app", "app:v2"⟩, ⟨"app", "app:v3"⟩]

/-! ## The loop body, case by case -/

theorem transfers_append (xs ys : List Event) :
    transfers (xs ++ ys) = transfers xs ++ transfers ys := by
  induction xs with
  | nil => rfl
  | cons e xs ih => cases e <;> simp [transfers, ih]

theorem queryCount_append (xs ys : List Event) :
    queryCount (xs ++ ys) = queryCount xs + queryCount ys := by
  induction xs with
  | nil => simp [queryCount]
  | cons e xs ih =>
    cases e
    all_goals simp [queryCount, ih]
    omega

theorem loopBody_not_built (env : Env) (r : SkaffoldRunner) (c : String) (a : Artifact)
    (known : Option (List String)) (tr : List Event) (h : r.wasBuilt a.Tag = false) :
    loopBody env r c a known tr = .next known tr := by
  simp [loopBody, h]

theorem loopBody_query_failed (env : Env) (r : SkaffoldRunner) (c : String) (a : Artifact)
    (known : Option (List String)) (tr tr2 : List Event) (kn : Option (List String))
    (err : GoError) (hb : r.wasBuilt a.Tag = true)
    (hres : resolveKnownImages env known (tr ++ [progress a.Tag]) = (tr2, kn, some err)) :
    loopBody env r c a known tr
      = .ret tr2 (.wrapped ("unable to retrieve node\x27s images: " ++ err.Error) err) := by
  simp only [loopBody, hb, hres]
  simp

theorem loopBody_found (env : Env) (r : SkaffoldRunner) (c : String) (a : Artifact)
    (known : Option (List String)) (tr tr2 : List Event) (kn : Option (List String))
    (hb : r.wasBuilt a.Tag = true)
    (hres : resolveKnownImages env known (tr ++ [progress a.Tag]) = (tr2, kn, none))
    (hc : StrSliceContains (kn.getD []) a.Tag = true) :
    loopBody env r c a known tr = .next kn (tr2 ++ [Fprintln .Green "Found"]) := by
  simp only [loopBody, hb, hres]
  simp [hc]

theorem loopBody_failed (env : Env) (r : SkaffoldRunner) (c : String) (a : Artifact)
    (known : Option (List String)) (tr tr2 : List Event) (kn : Option (List String))
    (output : String) (err : GoError)
    (hb : r.wasBuilt a.Tag = true)
    (hres : resolveKnownImages env known (tr ++ [progress a.Tag]) = (tr2, kn, none))
    (hc : StrSliceContains (kn.getD []) a.Tag = false)
    (hcmd : env.RunCmdOut tr2 (kindLoadCmd c a.Tag) = (output, some err)) :
    loopBody env r c a known tr
      = .ret (tr2 ++ [Event.RunCmdOut (kindLoadCmd c a.Tag)] ++ [Fprintln .Red "Failed"])
          (.wrapped ("unable to load image with kind " ++ env.Quote a.Tag ++ ": "
            ++ err.Error ++ ", " ++ output) err) := by
  simp only [loopBody, hb, hres]
  simp [hc, hcmd]

theorem loopBody_loaded (env : Env) (r : SkaffoldRunner) (c : String) (a : Artifact)
    (known : Option (List String)) (tr tr2 : List Event) (kn : Option (List String))
    (output : String)
    (hb : r.wasBuilt a.Tag = true)
    (hres : resolveKnownImages env known (tr ++ [progress a.Tag]) = (tr2, kn, none))
    (hc : StrSliceContains (kn.getD []) a.Tag = false)
    (hcmd : env.RunCmdOut tr2 (kindLoadCmd c a.Tag) = (output, none)) :
    loopBody env r c a known tr
      = .next kn (tr2 ++ [Event.RunCmdOut (kindLoadCmd c a.Tag)] ++ [Fprintln .Green "Loaded"]) := by
  simp only [loopBody, hb, hres]
  simp [hc, hcmd]

theorem findKnownImages_ok (env : Env) (tr : List Event) (text : String)
    (h : env.RunOut tr nodeQueryArgs = (text, none)) :
    findKnownImages env tr = (tr ++ [Event.RunOut nodeQueryArgs], some (Split text), none) := by
  simp [findKnownImages, h]

theorem findKnownImages_err (env : Env) (tr : List Event) (out : String) (err : GoError)
    (h : env.RunOut tr nodeQueryArgs = (out, some err)) :
    findKnownImages env tr = (tr ++ [Event.RunOut nodeQueryArgs], none,
      some (.wrapped ("unable to inspect the nodes: " ++ err.Error) err)) := by
  simp [findKnownImages, h]

theorem resolve_trace (env : Env) (known : Option (List String)) (tr : List Event) :
    (resolveKnownImages env known tr).1 = tr ++ queryEvents known := by
  cases known with
  | some k => simp [resolveKnownImages, queryEvents]
  | none =>
    rcases h : env.RunOut tr nodeQueryArgs with ⟨out, _ | err⟩
    · simp [resolveKnownImages, queryEvents, findKnownImages_ok env tr out h]
    · simp [resolveKnownImages, queryEvents, findKnownImages_err env tr out err h]

/-- A resolution that succeeds leaves a non-nil inventory, and one that
started from a memoized inventory returns that inventory. -/
theorem resolve_inventory (env : Env) (known : Option (List String)) (tr : List Event)
    (h : (resolveKnownImages env known tr).2.2 = none) :
    (resolveKnownImages env known tr).2.1.isSome = true ∧
      ∀ k, known = some k → (resolveKnownImages env known tr).2.1 = some k := by
  cases known with
  | some k => simp [resolveKnownImages]
  | none =>
    rcases hq : env.RunOut tr nodeQueryArgs with ⟨out, _ | err⟩
    · simp [resolveKnownImages, findKnownImages_ok env tr out hq]
    · simp [resolveKnownImages, findKnownImages_err env tr out err hq] at h

/-- Every iteration ends in one of five ways. -/
theorem loopBody_cases (env : Env) (r : SkaffoldRunner) (c : String) (a : Artifact)
    (known : Option (List String)) (tr : List Event) :
    (r.wasBuilt a.Tag = false ∧ loopBody env r c a known tr = .next known tr) ∨
    (r.wasBuilt a.Tag = true ∧ ∃ kn, ∃ err,
      resolveKnownImages env known (tr ++ [progress a.Tag])
        = (tr ++ [progress a.Tag] ++ queryEvents known, kn, some err) ∧
      loopBody env r c a known tr
        = .ret (tr ++ [progress a.Tag] ++ queryEvents known)
            (.wrapped ("unable to retrieve node\x27s images: " ++ err.Error) err)) ∨
    (r.wasBuilt a.Tag = true ∧ ∃ kn,
      resolveKnownImages env known (tr ++ [progress a.Tag])
        = (tr ++ [progress a.Tag] ++ queryEvents known, some kn, none) ∧
      StrSliceContains kn a.Tag = true ∧
      loopBody env r c a known tr
        = .next (some kn) (tr ++ [progress a.Tag] ++ queryEvents known
            ++ [Fprintln .Green "Found"])) ∨
    (r.wasBuilt a.Tag = true ∧ ∃ kn, ∃ output, ∃ err,
      resolveKnownImages env known (tr ++ [progress a.Tag])
        = (tr ++ [progress a.Tag] ++ queryEvents known, some kn, none) ∧
      StrSliceContains kn a.Tag = false ∧
      env.RunCmdOut (tr ++ [progress a.Tag] ++ queryEvents known) (kindLoadCmd c a.Tag)
        = (output, some err) ∧
      loopBody env r c a known tr
        = .ret (tr ++ [progress a.Tag] ++ queryEvents known
            ++ [Event.RunCmdOut (kindLoadCmd c a.Tag)] ++ [Fprintln .Red "Failed"])
            (.wrapped ("unable to load image with kind " ++ env.Quote a.Tag ++ ": "
              ++ err.Error ++ ", " ++ output) err)) ∨
    (r.wasBuilt a.Tag = true ∧ ∃ kn, ∃ output,
      resolveKnownImages env known (tr ++ [progress a.Tag])
        = (tr ++ [progress a.Tag] ++ queryEvents known, some kn, none) ∧
      StrSliceContains kn a.Tag = false ∧
      env.RunCmdOut (tr ++ [progress a.Tag] ++ queryEvents known) (kindLoadCmd c a.Tag)
        = (output, none) ∧
      loopBody env r c a known tr
        = .next (some kn) (tr ++ [progress a.Tag] ++ queryEvents known
            ++ [Event.RunCmdOut (kindLoadCmd c a.Tag)] ++ [Fprintln .Green "Loaded"])) := by
  cases hb : r.wasBuilt a.Tag with
  | false => exact Or.inl ⟨rfl, loopBody_not_built env r c a known tr hb⟩
  | true =>
    right
    have htr := resolve_trace env known (tr ++ [progress a.Tag])
    have hinv := resolve_inventory env known (tr ++ [progress a.Tag])
    rcases hres : resolveKnownImages env known (tr ++ [progress a.Tag]) with ⟨tr2, kn, oe⟩
    rw [hres] at htr hinv
    simp only at htr hinv
    subst htr
    cases oe with
    | some err =>
      exact Or.inl ⟨rfl, kn, err, rfl, loopBody_query_failed env r c a known tr _ kn err hb hres⟩
    | none =>
      right
      obtain ⟨hsome, -⟩ := hinv rfl
      obtain ⟨k, rfl⟩ := Option.isSome_iff_exists.mp hsome
      cases hc : StrSliceContains k a.Tag with
      | true =>
        exact Or.inl ⟨rfl, k, rfl, hc, loopBody_found env r c a known tr _ (some k) hb hres hc⟩
      | false =>
        right
        rcases hcmd : env.RunCmdOut (tr ++ [progress a.Tag] ++ queryEvents known)
          (kindLoadCmd c a.Tag) with ⟨output, _ | err⟩
        · exact Or.inr ⟨rfl, k, output, rfl, hc, rfl,
            loopBody_loaded env r c a known tr _ (some k) output hb hres hc hcmd⟩
        · exact Or.inl ⟨rfl, k, output, err, rfl, hc, rfl,
            loopBody_failed env r c a known tr _ (some k) output err hb hres hc hcmd⟩

/-! ## The loop -/

theorem loadLoop_nil (env : Env) (r : SkaffoldRunner) (c : String)
    (known : Option (List String)) (tr : List Event) :
    loadLoop env r c [] known tr
      = (tr ++ [Fprintln2 .Default "Images loaded in" (env.Since tr)], none) := rfl

theorem loadLoop_next (env : Env) (r : SkaffoldRunner) (c : String) (a : Artifact)
    (rest : List Artifact) (known k : Option (List String)) (tr t : List Event)
    (h : loopBody env r c a known tr = .next k t) :
    loadLoop env r c (a :: rest) known tr = loadLoop env r c rest k t := by
  simp [loadLoop, h]

theorem loadLoop_ret (env : Env) (r : SkaffoldRunner) (c : String) (a : Artifact)
    (rest : List Artifact) (known : Option (List String)) (tr t : List Event) (e : GoError)
    (h : loopBody env r c a known tr = .ret t e) :
    loadLoop env r c (a :: rest) known tr = (t, some e) := by
  simp [loadLoop, h]

theorem loadLoop_none_built (env : Env) (r : SkaffoldRunner) (c : String)
    (artifacts : List Artifact) (known : Option (List String)) (tr : List Event)
    (h : ∀ a ∈ artifacts, r.wasBuilt a.Tag = false) :
    loadLoop env r c artifacts known tr
      = (tr ++ [Fprintln2 .Default "Images loaded in" (env.Since tr)], none) := by
  induction artifacts with
  | nil => rfl
  | cons a rest ih =>
    have ha := h a (List.mem_cons_self _ _)
    rw [loadLoop_next env r c a rest known known tr tr (loopBody_not_built env r c a known tr ha)]
    exact ih (fun b hb => h b (List.mem_cons_of_mem _ hb))

theorem transfers_queryEvents (known : Option (List String)) :
    transfers (queryEvents known) = [] := by
  cases known <;> simp [queryEvents, transfers]

theorem transfers_progress (tag : String) : transfers [progress tag] = [] := rfl

theorem transfers_Fprintln (col : Color) (s : String) : transfers [Fprintln col s] = [] := rfl

theorem transfers_Fprintln2 (col : Color) (s t : String) :
    transfers [Fprintln2 col s t] = [] := rfl

/-- The transfer commands of a run in which the node query and every transfer
succeed, from any loop state whose memoized inventory is `nil` or `inv`. -/
theorem loadLoop_transfers (env : Env) (r : SkaffoldRunner) (c : String) (inv : List String)
    (hq : ∀ h, (findKnownImages env h).2 = (some inv, none))
    (ht : ∀ h argv, (env.RunCmdOut h argv).2 = none)
    (artifacts : List Artifact) (known : Option (List String)) (tr : List Event)
    (hk : known = none ∨ known = some inv) :
    transfers (loadLoop env r c artifacts known tr).1
      = transfers tr ++ (artifacts.filter
          (fun a => r.wasBuilt a.Tag && !StrSliceContains inv a.Tag)).map
          (fun a => kindLoadCmd c a.Tag) ∧
    (loadLoop env r c artifacts known tr).2 = none := by
  have hres : ∀ t, (resolveKnownImages env known t).2 = (some inv, none) := by
    intro t
    rcases hk with rfl | rfl
    · exact hq t
    · rfl
  induction artifacts generalizing known tr with
  | nil => simp [loadLoop_nil, transfers_append, transfers_Fprintln2]
  | cons a rest ih =>
    have hr := hres (tr ++ [progress a.Tag])
    rcases loopBody_cases env r c a known tr with
      ⟨hb, h⟩ | ⟨hb, kn, err, he, h⟩ | ⟨hb, kn, he, hc, h⟩ | ⟨hb, kn, out, err, he, hc, hcmd, h⟩
        | ⟨hb, kn, out, he, hc, hcmd, h⟩
    · rw [loadLoop_next env r c a rest known _ tr _ h]
      simpa [hb] using ih known tr hk hres
    · rw [he] at hr
      simp at hr
    · rw [he] at hr
      simp only [Prod.mk.injEq, Option.some.injEq, and_true] at hr
      subst hr
      rw [loadLoop_next env r c a rest known _ tr _ h]
      have := ih (some kn) (tr ++ [progress a.Tag] ++ queryEvents known
        ++ [Fprintln .Green "Found"]) (Or.inr rfl) (fun _ => rfl)
      simp only [transfers_append, transfers_queryEvents, transfers_progress,
        transfers_Fprintln, List.append_nil] at this
      refine ⟨?_, this.2⟩
      rw [this.1]
      simp [hb, hc]
    · have := ht (tr ++ [progress a.Tag] ++ queryEvents known) (kindLoadCmd c a.Tag)
      rw [hcmd] at this
      simp at this
    · rw [he] at hr
      simp only [Prod.mk.injEq, Option.some.injEq, and_true] at hr
      subst hr
      rw [loadLoop_next env r c a rest known _ tr _ h]
      have := ih (some kn) (tr ++ [progress a.Tag] ++ queryEvents known
        ++ [Event.RunCmdOut (kindLoadCmd c a.Tag)] ++ [Fprintln .Green "Loaded"])
        (Or.inr rfl) (fun _ => rfl)
      simp only [transfers_append, transfers_queryEvents, transfers_progress,
        transfers_Fprintln, List.append_nil] at this
      refine ⟨?_, this.2⟩
      rw [this.1]
      simp [hb, hc, transfers]


theorem queryCount_queryEvents (known : Option (List String)) :
    queryCount (queryEvents known) = if known.isSome then 0 else 1 := by
  cases known <;> simp [queryEvents, queryCount]

theorem queryCount_progress (tag : String) : queryCount [progress tag] = 0 := rfl

theorem queryCount_Fprintln (col : Color) (s : String) : queryCount [Fprintln col s] = 0 := rfl

theorem queryCount_Fprintln2 (col : Color) (s t : String) :
    queryCount [Fprintln2 col s t] = 0 := rfl

theorem queryCount_RunCmdOut (argv : List String) :
    queryCount [Event.RunCmdOut argv] = 0 := rfl

/-- A loop state leads to at most the queries already made, and one more
while the inventory is `nil`. -/
theorem loadLoop_queryCount (env : Env) (r : SkaffoldRunner) (c : String)
    (artifacts : List Artifact) (known : Option (List String)) (tr : List Event) :
    queryCount (loadLoop env r c artifacts known tr).1
      ≤ queryCount tr + (if known.isSome then 0 else 1) := by
  induction artifacts generalizing known tr with
  | nil => simp [loadLoop_nil, queryCount_append, queryCount_Fprintln2]
  | cons a rest ih =>
    rcases loopBody_cases env r c a known tr with
      ⟨_, h⟩ | ⟨_, kn, err, _, h⟩ | ⟨_, kn, _, _, h⟩ | ⟨_, kn, out, err, _, _, _, h⟩
        | ⟨_, kn, out, _, _, _, h⟩
    · rw [loadLoop_next env r c a rest known _ tr _ h]
      exact ih known tr
    · rw [loadLoop_ret env r c a rest known tr _ _ h]
      simp only [queryCount_append, queryCount_queryEvents, queryCount_progress]
      omega
    · rw [loadLoop_next env r c a rest known _ tr _ h]
      refine le_trans (ih _ _) ?_
      simp only [queryCount_append, queryCount_queryEvents, queryCount_progress,
        queryCount_Fprintln, Option.isSome_some, if_true]
      omega
    · rw [loadLoop_ret env r c a rest known tr _ _ h]
      simp only [queryCount_append, queryCount_queryEvents, queryCount_progress,
        queryCount_Fprintln, queryCount_RunCmdOut]
      omega
    · rw [loadLoop_next env r c a rest known _ tr _ h]
      refine le_trans (ih _ _) ?_
      simp only [queryCount_append, queryCount_queryEvents, queryCount_progress,
        queryCount_Fprintln, queryCount_RunCmdOut, Option.isSome_some, if_true]
      omega

theorem splitChars_ne_nil (sep : Char) (l : List Char) : splitChars sep l ≠ [] := by
  induction l with
  | nil => simp [splitChars]
  | cons x xs ih =>
    unfold splitChars
    split
    · simp
    · split <;> simp

theorem Split_ne_nil (s : String) : Split s ≠ [] := by
  simp [Split, splitChars_ne_nil]

/-- A node query that fails aborts the run at the first built artifact. -/
theorem loadLoop_query_fails (env : Env) (r : SkaffoldRunner) (c : String) (cause : GoError)
    (hq : ∀ h, (env.RunOut h nodeQueryArgs).2 = some cause)
    (artifacts : List Artifact) (tr : List Event)
    (hb : ∃ a ∈ artifacts, r.wasBuilt a.Tag = true) :
    transfers (loadLoop env r c artifacts none tr).1 = transfers tr ∧
    (loadLoop env r c artifacts none tr).2
      = some (.wrapped ("unable to retrieve node\x27s images: "
          ++ ("unable to inspect the nodes: " ++ cause.Error))
          (.wrapped ("unable to inspect the nodes: " ++ cause.Error) cause)) := by
  have hf : ∀ t, findKnownImages env t = (t ++ [Event.RunOut nodeQueryArgs], none,
      some (.wrapped ("unable to inspect the nodes: " ++ cause.Error) cause)) := by
    intro t
    have := hq t
    rcases hro : env.RunOut t nodeQueryArgs with ⟨out, oe⟩
    rw [hro] at this
    simp only at this
    subst this
    exact findKnownImages_err env t out cause hro
  induction artifacts generalizing tr with
  | nil => simp at hb
  | cons a rest ih =>
    cases hw : r.wasBuilt a.Tag with
    | false =>
      rw [loadLoop_next env r c a rest none _ tr _ (loopBody_not_built env r c a none tr hw)]
      apply ih
      obtain ⟨b, hbm, hbb⟩ := hb
      rcases List.mem_cons.mp hbm with rfl | hm
      · rw [hw] at hbb
        cases hbb
      · exact ⟨b, hm, hbb⟩
    | true =>
      have hres : resolveKnownImages env none (tr ++ [progress a.Tag])
          = (tr ++ [progress a.Tag] ++ [Event.RunOut nodeQueryArgs], none,
            some (.wrapped ("unable to inspect the nodes: " ++ cause.Error) cause)) :=
        hf _
      rw [loadLoop_ret env r c a rest none tr _ _
        (loopBody_query_failed env r c a none tr _ none _ hw hres)]
      simp [transfers_append, transfers_progress, transfers, GoError.Error]


/-- The loop only appends to the trace. -/
theorem loadLoop_extends (env : Env) (r : SkaffoldRunner) (c : String)
    (artifacts : List Artifact) (known : Option (List String)) (tr : List Event) :
    ∃ evs, (loadLoop env r c artifacts known tr).1 = tr ++ evs := by
  induction artifacts generalizing known tr with
  | nil => exact ⟨_, rfl⟩
  | cons a rest ih =>
    rcases loopBody_cases env r c a known tr with
      ⟨_, h⟩ | ⟨_, kn, err, _, h⟩ | ⟨_, kn, _, _, h⟩ | ⟨_, kn, out, err, _, _, _, h⟩
        | ⟨_, kn, out, _, _, _, h⟩
    · rw [loadLoop_next env r c a rest known _ tr _ h]
      exact ih known tr
    · rw [loadLoop_ret env r c a rest known tr _ _ h]
      exact ⟨_, List.append_assoc _ _ _⟩
    · rw [loadLoop_next env r c a rest known _ tr _ h]
      obtain ⟨evs, he⟩ := ih (some kn) (tr ++ [progress a.Tag] ++ queryEvents known
        ++ [Fprintln .Green "Found"])
      exact ⟨[progress a.Tag] ++ queryEvents known ++ [Fprintln .Green "Found"] ++ evs,
        by rw [he]; simp only [List.append_assoc]⟩
    · rw [loadLoop_ret env r c a rest known tr _ _ h]
      exact ⟨[progress a.Tag] ++ queryEvents known ++ [Event.RunCmdOut (kindLoadCmd c a.Tag)]
        ++ [Fprintln .Red "Failed"], by simp only [List.append_assoc]⟩
    · rw [loadLoop_next env r c a rest known _ tr _ h]
      obtain ⟨evs, he⟩ := ih (some kn) (tr ++ [progress a.Tag] ++ queryEvents known
        ++ [Event.RunCmdOut (kindLoadCmd c a.Tag)] ++ [Fprintln .Green "Loaded"])
      exact ⟨[progress a.Tag] ++ queryEvents known ++ [Event.RunCmdOut (kindLoadCmd c a.Tag)]
        ++ [Fprintln .Green "Loaded"] ++ evs, by rw [he]; simp only [List.append_assoc]⟩

theorem append_eq_append_cons {α : Type} (xs ys m t : List α) (e : α)
    (h : xs ++ ys = m ++ e :: t) :
    (∃ d, xs = m ++ e :: d ∧ t = d ++ ys) ∨ (∃ n, m = xs ++ n ∧ ys = n ++ e :: t) := by
  rcases List.append_eq_append_iff.mp h with ⟨n, h1, h2⟩ | ⟨d, h1, h2⟩
  · exact Or.inr ⟨n, h1, h2⟩
  · cases d with
    | nil =>
      refine Or.inr ⟨[], ?_, ?_⟩
      · simpa using h1.symm
      · simpa using h2.symm
    | cons x d =>
      simp only [List.cons_append, List.cons.injEq] at h2
      obtain ⟨rfl, rfl⟩ := h2
      exact Or.inl ⟨d, h1, rfl⟩

theorem transfers_cmd_ne_nil (m t : List Event) (argv : List String) :
    transfers (m ++ Event.RunCmdOut argv :: t) ≠ [] := by
  simp [transfers_append, transfers]

/-- Where a transfer command sits in a trace whose other events are no
transfer commands. -/
theorem cmd_position (p s m t : List Event) (cmd argv : List String)
    (hp : transfers p = []) (hs : transfers s = [])
    (h : p ++ Event.RunCmdOut cmd :: s = m ++ Event.RunCmdOut argv :: t) :
    m = p ∧ argv = cmd ∧ t = s := by
  rcases append_eq_append_cons p (Event.RunCmdOut cmd :: s) m t (Event.RunCmdOut argv) h with
    ⟨d, h1, _⟩ | ⟨n, h1, h2⟩
  · rw [h1] at hp
    exact absurd hp (transfers_cmd_ne_nil m d argv)
  · cases n with
    | nil =>
      simp only [List.nil_append, List.cons.injEq, Event.RunCmdOut.injEq] at h2
      exact ⟨by simpa using h1, h2.1.symm, h2.2.symm⟩
    | cons x n =>
      simp only [List.cons_append, List.cons.injEq] at h2
      rw [h2.2] at hs
      exact absurd hs (transfers_cmd_ne_nil n t argv)


theorem transfers_prefix_events (known : Option (List String)) (tag : String) :
    transfers ([progress tag] ++ queryEvents known) = [] := by
  rw [transfers_append, transfers_progress, transfers_queryEvents]
  rfl

/-- A transfer command that fails is the last command of the run: only the
`Failed` status follows it, the error reports it, and the artifacts after the
one it was issued for have no influence on the run. -/
theorem loadLoop_transfer_fails (env : Env) (r : SkaffoldRunner) (c : String)
    (artifacts : List Artifact) (known : Option (List String)) (tr m t : List Event)
    (argv : List String) (e : GoError)
    (hdec : (loadLoop env r c artifacts known tr).1 = tr ++ m ++ Event.RunCmdOut argv :: t)
    (hfail : (env.RunCmdOut (tr ++ m) argv).2 = some e) :
    ∃ pre a post, artifacts = pre ++ a :: post ∧ argv = kindLoadCmd c a.Tag ∧
      t = [Fprintln .Red "Failed"] ∧
      (loadLoop env r c artifacts known tr).2
        = some (.wrapped ("unable to load image with kind " ++ env.Quote a.Tag ++ ": "
            ++ e.Error ++ ", " ++ (env.RunCmdOut (tr ++ m) argv).1) e) ∧
      ∀ post2, loadLoop env r c (pre ++ a :: post2) known tr
        = loadLoop env r c artifacts known tr := by
  induction artifacts generalizing known tr m with
  | nil =>
    rw [loadLoop_nil, List.append_assoc] at hdec
    have h := List.append_cancel_left hdec
    cases m with
    | nil => simp [Fprintln2] at h
    | cons x m => simp at h
  | cons a rest ih =>
    rcases loopBody_cases env r c a known tr with
      ⟨_, h⟩ | ⟨_, kn, err, _, h⟩ | ⟨_, kn, _, _, h⟩ | ⟨_, kn, out, err, _, _, hcmd, h⟩
        | ⟨_, kn, out, _, _, hcmd, h⟩
    · rw [loadLoop_next env r c a rest known _ tr _ h] at hdec ⊢
      obtain ⟨pre, b, post, h1, h2, h3, h4, h5⟩ := ih known tr m hdec hfail
      refine ⟨a :: pre, b, post, by rw [h1]; rfl, h2, h3, h4, fun post2 => ?_⟩
      rw [List.cons_append, loadLoop_next env r c a _ known _ tr _ h]
      exact h5 post2
    · rw [loadLoop_ret env r c a rest known tr _ _ h] at hdec
      simp only [List.append_assoc] at hdec
      have h0 := List.append_cancel_left hdec
      have := congrArg transfers h0
      rw [transfers_prefix_events] at this
      exact absurd this.symm (transfers_cmd_ne_nil m t argv)
    · rw [loadLoop_next env r c a rest known _ tr _ h] at hdec ⊢
      obtain ⟨evs, hev⟩ := loadLoop_extends env r c rest (some kn)
        (tr ++ [progress a.Tag] ++ queryEvents known ++ [Fprintln .Green "Found"])
      have hdec2 := hdec
      rw [hev] at hdec2
      simp only [List.append_assoc] at hdec2
      have h0 := List.append_cancel_left hdec2
      rw [← List.append_assoc, ← List.append_assoc] at h0
      rcases append_eq_append_cons _ _ _ _ _ h0 with ⟨d, h1, _⟩ | ⟨n, h1, h2⟩
      · have := congrArg transfers h1
        rw [transfers_append, transfers_prefix_events, transfers_Fprintln] at this
        exact absurd this.symm (transfers_cmd_ne_nil m d argv)
      · subst h1
        have hd : (loadLoop env r c rest (some kn)
            (tr ++ [progress a.Tag] ++ queryEvents known ++ [Fprintln .Green "Found"])).1
            = (tr ++ [progress a.Tag] ++ queryEvents known ++ [Fprintln .Green "Found"])
              ++ n ++ Event.RunCmdOut argv :: t := by
          rw [hdec]; simp only [List.append_assoc]
        have hf : (env.RunCmdOut ((tr ++ [progress a.Tag] ++ queryEvents known
            ++ [Fprintln .Green "Found"]) ++ n) argv).2 = some e := by
          rw [← hfail]; simp only [List.append_assoc]
        obtain ⟨pre, b, post, h1, h2, h3, h4, h5⟩ := ih (some kn) _ n hd hf
        refine ⟨a :: pre, b, post, by rw [h1]; rfl, h2, h3, ?_, fun post2 => ?_⟩
        · rw [h4]; simp only [List.append_assoc]
        · rw [List.cons_append, loadLoop_next env r c a _ known _ tr _ h]
          exact h5 post2
    · rw [loadLoop_ret env r c a rest known tr _ _ h] at hdec ⊢
      simp only [List.append_assoc] at hdec
      have h0 := List.append_cancel_left hdec
      rw [← List.append_assoc] at h0
      obtain ⟨hm, hargv, ht⟩ := cmd_position _ _ _ _ _ _
        (transfers_prefix_events known a.Tag) (transfers_Fprintln _ _) h0
      subst hm hargv ht
      have hcmd2 : env.RunCmdOut (tr ++ ([progress a.Tag] ++ queryEvents known))
          (kindLoadCmd c a.Tag) = (out, some err) := by
        rw [← List.append_assoc]; exact hcmd
      rw [hcmd2] at hfail ⊢
      simp only [Option.some.injEq] at hfail
      subst hfail
      refine ⟨[], a, rest, rfl, rfl, rfl, rfl, fun post2 => ?_⟩
      exact loadLoop_ret env r c a post2 known tr _ _ h
    · rw [loadLoop_next env r c a rest known _ tr _ h] at hdec ⊢
      obtain ⟨evs, hev⟩ := loadLoop_extends env r c rest (some kn)
        (tr ++ [progress a.Tag] ++ queryEvents known
          ++ [Event.RunCmdOut (kindLoadCmd c a.Tag)] ++ [Fprintln .Green "Loaded"])
      have hdec2 := hdec
      rw [hev] at hdec2
      simp only [List.append_assoc] at hdec2
      have h0 := List.append_cancel_left hdec2
      rw [← List.append_assoc, ← List.append_assoc, ← List.append_assoc] at h0
      rcases append_eq_append_cons _ _ _ _ _ h0 with ⟨d, h1, _⟩ | ⟨n, h1, h2⟩
      · simp only [List.append_assoc, List.singleton_append] at h1
        obtain ⟨hm, hargv, _⟩ := cmd_position _ _ _ _ _ _
          (transfers_prefix_events known a.Tag) (transfers_Fprintln _ _) h1
        subst hm hargv
        rw [← List.append_assoc, hcmd] at hfail
        cases hfail
      · subst h1
        have hd : (loadLoop env r c rest (some kn)
            (tr ++ [progress a.Tag] ++ queryEvents known
              ++ [Event.RunCmdOut (kindLoadCmd c a.Tag)] ++ [Fprintln .Green "Loaded"])).1
            = (tr ++ [progress a.Tag] ++ queryEvents known
              ++ [Event.RunCmdOut (kindLoadCmd c a.Tag)] ++ [Fprintln .Green "Loaded"])
              ++ n ++ Event.RunCmdOut argv :: t := by
          rw [hdec]; simp only [List.append_assoc]
        have hf : (env.RunCmdOut ((tr ++ [progress a.Tag] ++ queryEvents known
            ++ [Event.RunCmdOut (kindLoadCmd c a.Tag)] ++ [Fprintln .Green "Loaded"]) ++ n)
            argv).2 = some e := by
          rw [← hfail]; simp only [List.append_assoc]
        obtain ⟨pre, b, post, h1, h2, h3, h4, h5⟩ := ih (some kn) _ n hd hf
        refine ⟨a :: pre, b, post, by rw [h1]; rfl, h2, h3, ?_, fun post2 => ?_⟩
        · rw [h4]; simp only [List.append_assoc]
        · rw [List.cons_append, loadLoop_next env r c a _ known _ tr _ h]
          exact h5 post2


/-! ## `strings.Split` and `strings.Join` -/

theorem splitChars_eq_splitOn (sep : Char) (l : List Char) :
    splitChars sep l = l.splitOn sep := by
  induction l with
  | nil => rfl
  | cons x xs ih =>
    rw [List.splitOn, List.splitOnP_cons, ← List.splitOn, ← ih, splitChars]
    by_cases h : x = sep
    · simp [h]
    · have hne := splitChars_ne_nil sep xs
      rcases hs : splitChars sep xs with _ | ⟨f, fs⟩
      · exact absurd hs hne
      · simp [h, List.modifyHead]

theorem Join_data (sep : String) (l : List String) :
    (Join l sep).data = List.intercalate sep.data (l.map String.data) := by
  induction l with
  | nil => rfl
  | cons a rest ih =>
    cases rest with
    | nil => simp [Join, List.intercalate]
    | cons b rest =>
      rw [Join, String.data_append, String.data_append, ih]
      simp [List.intercalate, List.intersperse]

theorem space_data : (" " : String).data = [Char.ofNat 32] := rfl

/-- Joining the fields of `Split` with single spaces gives the text back. -/
theorem Join_Split (text : String) : Join (Split text) " " = text := by
  apply String.ext
  rw [Join_data, space_data, Split, List.map_map]
  have : (String.data ∘ String.mk) = id := by
    funext l
    rfl
  rw [this, List.map_id, splitChars_eq_splitOn]
  exact List.intercalate_splitOn _ _

theorem splitChars_no_sep (sep : Char) (l f : List Char) (h : f ∈ splitChars sep l) :
    sep ∉ f := by
  induction l generalizing f with
  | nil =>
    simp only [splitChars, List.mem_singleton] at h
    simp [h]
  | cons x xs ih =>
    unfold splitChars at h
    by_cases hx : x = sep
    · simp only [hx, if_true, List.mem_cons] at h
      rcases h with rfl | h
      · simp
      · exact ih f h
    · simp only [hx, if_false] at h
      rcases hs : splitChars sep xs with _ | ⟨g, gs⟩
      · exact absurd hs (splitChars_ne_nil sep xs)
      · rw [hs] at h ih
        simp only [List.mem_cons] at h
        rcases h with rfl | h
        · have := ih g (List.mem_cons_self _ _)
          simp only [List.mem_cons, not_or]
          exact ⟨fun e => hx e.symm, this⟩
        · exact ih f (List.mem_cons_of_mem _ h)

/-- No field of `Split` contains a space. -/
theorem Split_no_space (text t : String) (h : t ∈ Split text) : Char.ofNat 32 ∉ t.data := by
  obtain ⟨l, hl, rfl⟩ := List.mem_map.mp h
  exact splitChars_no_sep _ _ l hl

/-- A non-empty list of space-free strings is what `Split` makes of its
`Join`. -/
theorem Split_Join (l : List String) (hne : l ≠ [])
    (hl : ∀ t ∈ l, Char.ofNat 32 ∉ t.data) : Split (Join l " ") = l := by
  rw [Split, splitChars_eq_splitOn, Join_data, space_data,
    List.splitOn_intercalate _ (Char.ofNat 32)]
  · rw [List.map_map]
    have : (String.mk ∘ String.data) = id := by
      funext s
      rfl
    rw [this, List.map_id]
  · intro x hx
    obtain ⟨t, ht, rfl⟩ := List.mem_map.mp hx
    exact hl t ht
  · simpa using hne

theorem StrSliceContains_iff (l : List String) (s : String) :
    StrSliceContains l s = true ↔ s ∈ l := by
  induction l with
  | nil => simp [StrSliceContains]
  | cons x rest ih =>
    unfold StrSliceContains
    by_cases h : x = s
    · simp [h]
    · simp [h, ih, Ne.symm h]


/-! ## The summary line -/

theorem isSummary_progress (tag : String) : isSummary (progress tag) = false := by
  simp [isSummary, progress, String.data_append, List.isPrefixOf]

theorem isSummary_Fprintln2 (d : String) :
    isSummary (Fprintln2 .Default "Images loaded in" d) = true := by
  simp [isSummary, Fprintln2, String.data_append, List.isPrefixOf]

theorem isSummary_status (col : Color) :
    isSummary (Fprintln col "Found") = false ∧ isSummary (Fprintln col "Loaded") = false ∧
      isSummary (Fprintln col "Failed") = false := by
  cases col <;> decide

theorem isSummary_RunCmdOut (argv : List String) :
    isSummary (Event.RunCmdOut argv) = false := rfl

theorem isSummary_header : isSummary header = false := by decide

theorem any_isSummary_queryEvents (known : Option (List String)) :
    (queryEvents known).any isSummary = false := by
  cases known <;> simp [queryEvents, isSummary]

/-- The summary line is the last event of a run that returns `nil`, and no
other event of any run is a summary line. -/
theorem loadLoop_summary (env : Env) (r : SkaffoldRunner) (c : String)
    (artifacts : List Artifact) (known : Option (List String)) (tr : List Event)
    (htr : tr.any isSummary = false) :
    ((loadLoop env r c artifacts known tr).2 = none ∧
      ∃ t, (loadLoop env r c artifacts known tr).1
          = t ++ [Fprintln2 .Default "Images loaded in" (env.Since t)] ∧
        t.any isSummary = false) ∨
    ((loadLoop env r c artifacts known tr).2 ≠ none ∧
      (loadLoop env r c artifacts known tr).1.any isSummary = false) := by
  induction artifacts generalizing known tr with
  | nil => exact Or.inl ⟨rfl, tr, rfl, htr⟩
  | cons a rest ih =>
    rcases loopBody_cases env r c a known tr with
      ⟨_, h⟩ | ⟨_, kn, err, _, h⟩ | ⟨_, kn, _, _, h⟩ | ⟨_, kn, out, err, _, _, _, h⟩
        | ⟨_, kn, out, _, _, _, h⟩
    · rw [loadLoop_next env r c a rest known _ tr _ h]
      exact ih known tr htr
    · rw [loadLoop_ret env r c a rest known tr _ _ h]
      refine Or.inr ⟨by simp, ?_⟩
      simp [List.any_append, htr, isSummary_progress, any_isSummary_queryEvents]
    · rw [loadLoop_next env r c a rest known _ tr _ h]
      apply ih
      simp [List.any_append, htr, isSummary_progress, any_isSummary_queryEvents,
        isSummary_status]
    · rw [loadLoop_ret env r c a rest known tr _ _ h]
      refine Or.inr ⟨by simp, ?_⟩
      simp [List.any_append, htr, isSummary_progress, any_isSummary_queryEvents,
        isSummary_status, isSummary_RunCmdOut]
    · rw [loadLoop_next env r c a rest known _ tr _ h]
      apply ih
      simp [List.any_append, htr, isSummary_progress, any_isSummary_queryEvents,
        isSummary_status, isSummary_RunCmdOut]


/-! ## The claims -/

theorem GoError.Is_self (e : GoError) : e.Is e = true := by
  cases e <;> simp [GoError.Is]

theorem transfers_header : transfers [header] = [] := rfl

/-- C1: when the node query succeeds with inventory `inv` and every transfer
command succeeds, the transfer commands of a call are exactly, in input order,
one `kind load docker-image --name <kindCluster> <tag>` for each artifact whose
tag was built and is not a member of `inv`, and the call returns `nil`. -/
theorem loadImagesInKindNodes_transfers (env : Env) (r : SkaffoldRunner)
    (kindCluster : String) (artifacts : List Artifact) (inv : List String)
    (hq : ∀ h, (findKnownImages env h).2 = (some inv, none))
    (ht : ∀ h argv, (env.RunCmdOut h argv).2 = none) :
    transfers (loadImagesInKindNodes env r kindCluster artifacts).1
      = (artifacts.filter (fun a => r.wasBuilt a.Tag && decide (a.Tag ∉ inv))).map
          (fun a => ["kind", "load", "docker-image", "--name", kindCluster, a.Tag]) ∧
    (loadImagesInKindNodes env r kindCluster artifacts).2 = none := by
  obtain ⟨h1, h2⟩ := loadLoop_transfers env r kindCluster inv hq ht artifacts none [header]
    (Or.inl rfl)
  refine ⟨?_, h2⟩
  rw [loadImagesInKindNodes, h1, transfers_header, List.nil_append]
  have hcmd : (fun a : Artifact => kindLoadCmd kindCluster a.Tag)
      = (fun a : Artifact => ["kind", "load", "docker-image", "--name", kindCluster, a.Tag]) :=
    rfl
  rw [hcmd]
  congr 1
  apply List.filter_congr
  intro a _
  cases hc : StrSliceContains inv a.Tag with
  | true => simp [(StrSliceContains_iff inv a.Tag).mp hc]
  | false =>
    have : a.Tag ∉ inv := fun hm => by
      rw [(StrSliceContains_iff inv a.Tag).mpr hm] at hc
      cases hc
    simp [this]

/-- C1, worked: in the cluster `dev-cluster`, `app:v1` is on the nodes,
`app:v2` and `app:v3` are not, `db:v3` was not built; the transfers are those
of `app:v2` and `app:v3`, in that order, each with `--name dev-cluster`. -/
theorem loadImagesInKindNodes_transfers_witness :
    transfers (loadImagesInKindNodes (exampleEnv ("app:v0 app:v1", none) (fun _ => ("", none)))
        ⟨[⟨"app", "app:v3"⟩, ⟨"app", "app:v1"⟩, ⟨"app", "app:v2"⟩]⟩ "dev-cluster"
        [⟨"app", "app:v1"⟩, ⟨"db", "db:v3"⟩, ⟨"app", "app:v2"⟩, ⟨"app", "app:v3"⟩]).1
      = [["kind", "load", "docker-image", "--name", "dev-cluster", "app:v2"],
         ["kind", "load", "docker-image", "--name", "dev-cluster", "app:v3"]] := by
  rw [(loadImagesInKindNodes_transfers
    (exampleEnv ("app:v0 app:v1", none) (fun _ => ("", none)))
    ⟨[⟨"app", "app:v3"⟩, ⟨"app", "app:v1"⟩, ⟨"app", "app:v2"⟩]⟩ "dev-cluster"
    [⟨"app", "app:v1"⟩, ⟨"db", "db:v3"⟩, ⟨"app", "app:v2"⟩, ⟨"app", "app:v3"⟩]
    ["app:v0", "app:v1"] (fun _ => rfl) (fun _ _ => rfl)).1]
  decide

/-- C2: when no artifact's tag was built by this run, and so whenever the
runner built nothing, a call writes the header and the summary line, issues
no node query and no transfer command, and returns `nil`. -/
theorem loadImagesInKindNodes_nothing_built (env : Env) (r : SkaffoldRunner)
    (kindCluster : String) (artifacts : List Artifact)
    (h : r.builds = [] ∨ ∀ a ∈ artifacts, r.wasBuilt a.Tag = false) :
    loadImagesInKindNodes env r kindCluster artifacts
      = ([header, Fprintln2 .Default "Images loaded in" (env.Since [header])], none) ∧
    queryCount (loadImagesInKindNodes env r kindCluster artifacts).1 = 0 ∧
    transfers (loadImagesInKindNodes env r kindCluster artifacts).1 = [] := by
  have hall : ∀ a ∈ artifacts, r.wasBuilt a.Tag = false := by
    rcases h with h | h
    · intro a _
      simp [SkaffoldRunner.wasBuilt, h, wasBuiltLoop]
    · exact h
  have := loadLoop_none_built env r kindCluster artifacts none [header] hall
  rw [loadImagesInKindNodes, this]
  exact ⟨rfl, rfl, rfl⟩

/-- C2, worked: the runner built nothing. -/
theorem loadImagesInKindNodes_nothing_built_witness :
    loadImagesInKindNodes (exampleEnv ("app:v1", none) (fun _ => ("", none))) ⟨[]⟩ "kind"
        [⟨"app", "app:v1"⟩]
      = ([header, Fprintln2 .Default "Images loaded in" "1s"], none) :=
  (loadImagesInKindNodes_nothing_built (exampleEnv ("app:v1", none) (fun _ => ("", none)))
    ⟨[]⟩ "kind" [⟨"app", "app:v1"⟩] (Or.inl rfl)).1

/-- C3: for an artifact the loop reaches in any state, if its tag was built
and is a member of the resolved inventory, the iteration writes the progress
prefix, resolves the inventory, writes `Found`, issues no transfer command,
and the loop goes on with the next artifact. -/
theorem loopBody_known_image (env : Env) (r : SkaffoldRunner) (kindCluster : String)
    (artifact : Artifact) (rest : List Artifact) (knownImages : Option (List String))
    (tr : List Event) (inv : List String)
    (hb : r.wasBuilt artifact.Tag = true)
    (hres : (resolveKnownImages env knownImages (tr ++ [progress artifact.Tag])).2
      = (some inv, none))
    (hm : artifact.Tag ∈ inv) :
    loopBody env r kindCluster artifact knownImages tr
      = .next (some inv) (tr ++ [progress artifact.Tag] ++ queryEvents knownImages
          ++ [Fprintln .Green "Found"]) ∧
    transfers ([progress artifact.Tag] ++ queryEvents knownImages
      ++ [Fprintln .Green "Found"]) = [] ∧
    loadLoop env r kindCluster (artifact :: rest) knownImages tr
      = loadLoop env r kindCluster rest (some inv)
          (tr ++ [progress artifact.Tag] ++ queryEvents knownImages
            ++ [Fprintln .Green "Found"]) := by
  have htr := resolve_trace env knownImages (tr ++ [progress artifact.Tag])
  have hfull : resolveKnownImages env knownImages (tr ++ [progress artifact.Tag])
      = (tr ++ [progress artifact.Tag] ++ queryEvents knownImages, some inv, none) := by
    rw [← htr, ← hres]
  have hbody := loopBody_found env r kindCluster artifact knownImages tr _ (some inv) hb hfull
    ((StrSliceContains_iff inv artifact.Tag).mpr hm)
  refine ⟨hbody, ?_, loadLoop_next env r kindCluster artifact rest knownImages _ tr _ hbody⟩
  rw [transfers_append, transfers_prefix_events, transfers_Fprintln]
  rfl

/-- C3, worked: the first built artifact is on the nodes. -/
theorem loopBody_known_image_witness :
    loopBody (exampleEnv ("app:v1 app:v0", none) (fun _ => ("", none)))
        ⟨[⟨"app", "app:v1"⟩]⟩ "kind" ⟨"app", "app:v1"⟩ none [header]
      = .next (some ["app:v1", "app:v0"])
          [header, progress "app:v1", Event.RunOut nodeQueryArgs, Fprintln .Green "Found"] :=
  (loopBody_known_image (exampleEnv ("app:v1 app:v0", none) (fun _ => ("", none)))
    ⟨[⟨"app", "app:v1"⟩]⟩ "kind" ⟨"app", "app:v1"⟩ [] none [header] ["app:v1", "app:v0"]
    (by decide) (by decide) (by decide)).1

/-- C4: a call issues the node query at most once, whatever the artifacts and
whatever the query answers; a successful `findKnownImages` returns a slice
that is not `nil` and has at least one element (also for the empty text), and
an iteration that starts with a memoized inventory keeps it and queries
nothing. -/
theorem loadImagesInKindNodes_queries_once (env : Env) (r : SkaffoldRunner)
    (kindCluster : String) (artifacts : List Artifact) :
    queryCount (loadImagesInKindNodes env r kindCluster artifacts).1 ≤ 1 ∧
    (∀ h, (findKnownImages env h).2.2 = none →
      ∃ inv, (findKnownImages env h).2.1 = some inv ∧ inv ≠ []) ∧
    (∀ a k tr kn t, loopBody env r kindCluster a (some k) tr = .next kn t →
      kn = some k ∧ queryCount t = queryCount tr) := by
  refine ⟨?_, ?_, ?_⟩
  · exact loadLoop_queryCount env r kindCluster artifacts none _
  · intro h hnone
    rcases hq : env.RunOut h nodeQueryArgs with ⟨out, _ | err⟩
    · exact ⟨Split out, by rw [findKnownImages_ok env h out hq], Split_ne_nil out⟩
    · rw [findKnownImages_err env h out err hq] at hnone
      cases hnone
  · intro a k tr kn t hstep
    rcases loopBody_cases env r kindCluster a (some k) tr with
      ⟨_, h⟩ | ⟨_, kn2, err, _, h⟩ | ⟨_, kn2, he, _, h⟩ | ⟨_, kn2, out, err, _, _, _, h⟩
        | ⟨_, kn2, out, he, _, _, h⟩
    · rw [h] at hstep
      cases hstep
      exact ⟨rfl, rfl⟩
    · rw [h] at hstep
      cases hstep
    · rw [h] at hstep
      cases hstep
      simp only [resolveKnownImages, Prod.mk.injEq, Option.some.injEq] at he
      refine ⟨by rw [he.2.1], ?_⟩
      simp [queryCount_append, queryCount_progress, queryCount_Fprintln, queryEvents,
        queryCount]
    · rw [h] at hstep
      cases hstep
    · rw [h] at hstep
      cases hstep
      simp only [resolveKnownImages, Prod.mk.injEq, Option.some.injEq] at he
      refine ⟨by rw [he.2.1], ?_⟩
      simp [queryCount_append, queryCount_progress, queryCount_Fprintln, queryEvents,
        queryCount]


theorem inspect_infix (pre post : String) :
    "unable to inspect the nodes".data
      <:+: (pre ++ ("unable to inspect the nodes: " ++ post)).data := by
  refine ⟨pre.data, (": " : String).data ++ post.data, ?_⟩
  simp only [String.data_append, List.append_assoc]
  rfl

/-- C5: when at least one artifact of the list was built and the node query
fails with `cause`, a call issues no transfer command and returns an error
that wraps the error of `findKnownImages`; that error comes with a `nil`
inventory, wraps `cause` and says `unable to inspect the nodes`, as does the
message of the returned error. -/
theorem loadImagesInKindNodes_query_fails (env : Env) (r : SkaffoldRunner)
    (kindCluster : String) (artifacts : List Artifact) (cause : GoError)
    (hb : ∃ a ∈ artifacts, r.wasBuilt a.Tag = true)
    (hq : ∀ h, (env.RunOut h nodeQueryArgs).2 = some cause) :
    transfers (loadImagesInKindNodes env r kindCluster artifacts).1 = [] ∧
    ∃ err inner, (loadImagesInKindNodes env r kindCluster artifacts).2 = some err ∧
      (∀ h, (findKnownImages env h).2 = (none, some inner)) ∧
      err.Unwrap = some inner ∧ inner.Unwrap = some cause ∧ err.Is cause = true ∧
      inner.Error = "unable to inspect the nodes: " ++ cause.Error ∧
      "unable to inspect the nodes".data <:+: inner.Error.data ∧
      "unable to inspect the nodes".data <:+: err.Error.data := by
  obtain ⟨h1, h2⟩ := loadLoop_query_fails env r kindCluster cause hq artifacts [header] hb
  refine ⟨by rw [loadImagesInKindNodes, h1]; rfl, _, _, h2, ?_, rfl, rfl, ?_, rfl,
    ?_, ?_⟩
  · intro h
    have := hq h
    rcases hro : env.RunOut h nodeQueryArgs with ⟨out, oe⟩
    rw [hro] at this
    simp only at this
    subst this
    rw [findKnownImages_err env h out cause hro]
  · simp [GoError.Is, GoError.Is_self]
  · simpa using inspect_infix "" cause.Error
  · exact inspect_infix _ _

/-- C5, worked: the node query fails with `connection refused`. -/
theorem loadImagesInKindNodes_query_fails_witness :
    transfers (loadImagesInKindNodes
        (exampleEnv ("", some (.leaf "connection refused")) (fun _ => ("", none)))
        ⟨[⟨"app", "app:v1"⟩]⟩ "kind" [⟨"app", "app:v1"⟩]).1 = [] :=
  (loadImagesInKindNodes_query_fails
    (exampleEnv ("", some (.leaf "connection refused")) (fun _ => ("", none)))
    ⟨[⟨"app", "app:v1"⟩]⟩ "kind" [⟨"app", "app:v1"⟩] (.leaf "connection refused")
    ⟨⟨"app", "app:v1"⟩, by decide, by decide⟩ (fun _ => rfl)).1

/-- C6: if a transfer command of a call fails with `e`, it is the command for
some artifact N of the list, the only thing the call does after it is to write
`Failed`, so no later artifact gets a progress line, a presence check or a
transfer; the artifacts after N have no influence on the call; and the call
returns an error that wraps `e` and whose message is made of the quoted tag of
artifact N, the message of `e` and the captured output. -/
theorem loadImagesInKindNodes_transfer_fails (env : Env) (r : SkaffoldRunner)
    (kindCluster : String) (artifacts : List Artifact) (m t : List Event)
    (argv : List String) (e : GoError)
    (hdec : (loadImagesInKindNodes env r kindCluster artifacts).1
      = m ++ Event.RunCmdOut argv :: t)
    (hfail : (env.RunCmdOut m argv).2 = some e) :
    ∃ pre a post, artifacts = pre ++ a :: post ∧ argv = kindLoadCmd kindCluster a.Tag ∧
      t = [Fprintln .Red "Failed"] ∧
      (∃ err, (loadImagesInKindNodes env r kindCluster artifacts).2 = some err ∧
        err.Unwrap = some e ∧
        err.Error = "unable to load image with kind " ++ env.Quote a.Tag ++ ": "
          ++ e.Error ++ ", " ++ (env.RunCmdOut m argv).1) ∧
      ∀ post2, loadImagesInKindNodes env r kindCluster (pre ++ a :: post2)
        = loadImagesInKindNodes env r kindCluster artifacts := by
  obtain ⟨evs, hev⟩ := loadLoop_extends env r kindCluster artifacts none [header]
  have hm : ∃ n, m = [header] ++ n := by
    have h0 : m ++ Event.RunCmdOut argv :: t = [header] ++ evs := by
      rw [← hdec, loadImagesInKindNodes, hev]
    cases m with
    | nil =>
      simp only [List.nil_append, List.singleton_append, List.cons.injEq] at h0
      exact absurd h0.1 (by simp [header, Fprintln])
    | cons x n =>
      simp only [List.cons_append, List.singleton_append, List.cons.injEq, List.nil_append]
        at h0
      exact ⟨n, by rw [h0.1]; rfl⟩
  obtain ⟨n, rfl⟩ := hm
  obtain ⟨pre, a, post, h1, h2, h3, h4, h5⟩ :=
    loadLoop_transfer_fails env r kindCluster artifacts none [header] n t argv e hdec hfail
  exact ⟨pre, a, post, h1, h2, h3, ⟨_, h4, rfl, rfl⟩, h5⟩

/-- C6, worked: the transfer of `app:v2` fails with output `no such image`;
`app:v3` after it is not processed, and the error names `app:v2`. -/
theorem loadImagesInKindNodes_transfer_fails_witness :
    ∃ pre a post, exampleArtifacts = pre ++ a :: post ∧
      kindLoadCmd "kind" "app:v2" = kindLoadCmd "kind" a.Tag ∧
      [Fprintln .Red "Failed"] = [Fprintln .Red "Failed"] ∧
      (∃ err, (loadImagesInKindNodes (exampleEnv ("app:v0", none) exampleKind)
          ⟨exampleArtifacts⟩ "kind" exampleArtifacts).2 = some err ∧
        err.Unwrap = some (.leaf "exit status 1") ∧
        err.Error = "unable to load image with kind "
          ++ (exampleEnv ("app:v0", none) exampleKind).Quote a.Tag ++ ": "
          ++ (GoError.leaf "exit status 1").Error ++ ", "
          ++ ((exampleEnv ("app:v0", none) exampleKind).RunCmdOut
              [header, progress "app:v1", Event.RunOut nodeQueryArgs,
                Event.RunCmdOut (kindLoadCmd "kind" "app:v1"), Fprintln .Green "Loaded",
                progress "app:v2"]
              (kindLoadCmd "kind" "app:v2")).1) ∧
      ∀ post2, loadImagesInKindNodes (exampleEnv ("app:v0", none) exampleKind)
          ⟨exampleArtifacts⟩ "kind" (pre ++ a :: post2)
        = loadImagesInKindNodes (exampleEnv ("app:v0", none) exampleKind)
          ⟨exampleArtifacts⟩ "kind" exampleArtifacts :=
  loadImagesInKindNodes_transfer_fails (exampleEnv ("app:v0", none) exampleKind)
    ⟨exampleArtifacts⟩ "kind" exampleArtifacts
    [header, progress "app:v1", Event.RunOut nodeQueryArgs,
      Event.RunCmdOut (kindLoadCmd "kind" "app:v1"), Fprintln .Green "Loaded",
      progress "app:v2"]
    [Fprintln .Red "Failed"] (kindLoadCmd "kind" "app:v2") (.leaf "exit status 1")
    (by decide) (by decide)

/-- The scenario of the specification: the error for the failed transfer of
`app:v2` carries the tag and the output `no such image`. -/
theorem transfer_fails_scenario :
    (loadImagesInKindNodes (exampleEnv ("app:v0", none) exampleKind)
        ⟨exampleArtifacts⟩ "kind" exampleArtifacts).2
      = some (.wrapped
          "unable to load image with kind \x22app:v2\x22: exit status 1, no such image"
          (.leaf "exit status 1")) := by
  decide

/-- C7, as stated, fails: a tab does not separate, so `a` is a whitespace
token of the text `a<TAB>b` and not a member of the inventory; and two spaces
in a row put the empty string into the inventory. -/
theorem findKnownImages_not_whitespace_tokens :
    (findKnownImages (exampleEnv ("a\tb", none) exampleKind) []).2 = (some ["a\tb"], none) ∧
    whitespaceTokens "a\tb" = ["a", "b"] ∧
    (findKnownImages (exampleEnv ("a  b", none) exampleKind) []).2
      = (some ["a", "", "b"], none) ∧
    whitespaceTokens "a  b" = ["a", "b"] := by
  decide

/-- C7, amended: for every text a successful node query returns, the inventory
of `findKnownImages` is the text cut at every single space character: it is
the one non-empty list of space-free strings that, joined by single spaces,
gives the text. Tabs and newlines do not separate, and a run of spaces yields
empty fields. -/
theorem findKnownImages_space_fields (env : Env) (h : List Event) (text : String)
    (hq : env.RunOut h nodeQueryArgs = (text, none)) :
    ∃ inv, (findKnownImages env h).2 = (some inv, none) ∧ inv ≠ [] ∧
      (∀ t ∈ inv, Char.ofNat 32 ∉ t.data) ∧ Join inv " " = text ∧
      ∀ l : List String, l ≠ [] → (∀ t ∈ l, Char.ofNat 32 ∉ t.data) →
        Join l " " = text → l = inv := by
  refine ⟨Split text, by rw [findKnownImages_ok env h text hq], Split_ne_nil text,
    Split_no_space text, Join_Split text, ?_⟩
  intro l hne hl hj
  rw [← hj, Split_Join l hne hl]

/-- C7 amended, worked: tabs stay inside a field and two spaces make an empty
field. -/
theorem findKnownImages_space_fields_witness :
    ∃ inv, (findKnownImages (exampleEnv ("a\tb  c", none) exampleKind) []).2 = (some inv, none) ∧
      inv ≠ [] ∧ (∀ t ∈ inv, Char.ofNat 32 ∉ t.data) ∧ Join inv " " = "a\tb  c" ∧
      ∀ l : List String, l ≠ [] → (∀ t ∈ l, Char.ofNat 32 ∉ t.data) →
        Join l " " = "a\tb  c" → l = inv :=
  findKnownImages_space_fields (exampleEnv ("a\tb  c", none) exampleKind) [] "a\tb  c" rfl

/-- C8, as stated, fails: when the node query fails, and when a transfer
fails, the call returns an error and has written no summary line. -/
theorem loadImagesInKindNodes_abort_no_summary :
    (loadImagesInKindNodes (exampleEnv ("", some (.leaf "connection refused")) exampleKind)
        ⟨exampleArtifacts⟩ "kind" exampleArtifacts)
      = ([header, progress "app:v1", Event.RunOut nodeQueryArgs],
        some (.wrapped
          "unable to retrieve node\x27s images: unable to inspect the nodes: connection refused"
          (.wrapped "unable to inspect the nodes: connection refused"
            (.leaf "connection refused")))) ∧
    ([header, progress "app:v1", Event.RunOut nodeQueryArgs].any isSummary) = false ∧
    (loadImagesInKindNodes (exampleEnv ("app:v0", none) exampleKind)
        ⟨exampleArtifacts⟩ "kind" exampleArtifacts).1.any isSummary = false ∧
    (loadImagesInKindNodes (exampleEnv ("app:v0", none) exampleKind)
        ⟨exampleArtifacts⟩ "kind" exampleArtifacts).2 ≠ none := by
  decide

/-- C8, amended: a call that processes all artifacts and returns `nil` writes
the summary line `Images loaded in ...` as the last thing it does, and nothing
it wrote before is a summary line; a call that returns an error has written no
summary line. -/
theorem loadImagesInKindNodes_summary (env : Env) (r : SkaffoldRunner)
    (kindCluster : String) (artifacts : List Artifact) :
    ((loadImagesInKindNodes env r kindCluster artifacts).2 = none ∧
      ∃ t, (loadImagesInKindNodes env r kindCluster artifacts).1
          = t ++ [Fprintln2 .Default "Images loaded in" (env.Since t)] ∧
        t.any isSummary = false) ∨
    ((loadImagesInKindNodes env r kindCluster artifacts).2 ≠ none ∧
      (loadImagesInKindNodes env r kindCluster artifacts).1.any isSummary = false) :=
  loadLoop_summary env r kindCluster artifacts none _ (by decide)

/-- C9, the failing input: both artifacts were built and both images are on
the nodes, and `kubectl` answers with the single quotes of the jsonpath
argument around its reply. The tokens `findKnownImages` returns carry the
quotes, neither tag is found, and both images are loaded although the nodes
know them; with the same reply without the quotes both are `Found` and
nothing is loaded. The empty reply gives the empty token. -/
theorem findKnownImages_keeps_quotes :
    (findKnownImages (exampleEnv ("\x27app:v1 app:v2\x27", none) (fun _ => ("", none))) []).2
      = (some ["\x27app:v1", "app:v2\x27"], none) ∧
    loadImagesInKindNodes (exampleEnv ("\x27app:v1 app:v2\x27", none) (fun _ => ("", none)))
        ⟨[⟨"app", "app:v1"⟩, ⟨"app", "app:v2"⟩]⟩ "kind"
        [⟨"app", "app:v1"⟩, ⟨"app", "app:v2"⟩]
      = ([header, progress "app:v1", Event.RunOut nodeQueryArgs,
          Event.RunCmdOut ["kind", "load", "docker-image", "--name", "kind", "app:v1"],
          Fprintln .Green "Loaded", progress "app:v2",
          Event.RunCmdOut ["kind", "load", "docker-image", "--name", "kind", "app:v2"],
          Fprintln .Green "Loaded", Fprintln2 .Default "Images loaded in" "1s"], none) ∧
    loadImagesInKindNodes (exampleEnv ("app:v1 app:v2", none) (fun _ => ("", none)))
        ⟨[⟨"app", "app:v1"⟩, ⟨"app", "app:v2"⟩]⟩ "kind"
        [⟨"app", "app:v1"⟩, ⟨"app", "app:v2"⟩]
      = ([header, progress "app:v1", Event.RunOut nodeQueryArgs, Fprintln .Green "Found",
          progress "app:v2", Fprintln .Green "Found",
          Fprintln2 .Default "Images loaded in" "1s"], none) ∧
    (findKnownImages (exampleEnv ("", none) (fun _ => ("", none))) []).2
      = (some [""], none) := by
  decide

/-- C10, the failing input: one built artifact and a node query that fails.
The call writes the header and the progress prefix of `app:v1`, runs the
query, and returns the error: no status word follows the prefix. -/
theorem loadImagesInKindNodes_prefix_without_status :
    loadImagesInKindNodes (exampleEnv ("", some (.leaf "connection refused")) exampleKind)
        ⟨[⟨"app", "app:v1"⟩]⟩ "kind" [⟨"app", "app:v1"⟩]
      = ([header, progress "app:v1", Event.RunOut nodeQueryArgs],
        some (.wrapped
          "unable to retrieve node\x27s images: unable to inspect the nodes: connection refused"
          (.wrapped "unable to inspect the nodes: connection refused"
            (.leaf "connection refused")))) ∧
    ([header, progress "app:v1", Event.RunOut nodeQueryArgs].any isStatus) = false := by
  decide

end Kind
